import Mathlib

/-!
# Verification of the `process-job` webhook handler

Shallow embedding of `src/app/api/webhook/process-job/route.ts`: a webhook
endpoint that validates a notification payload, guards on the payload's
`status` field, loads the job row, marks it `processing`, acquires the input
image (inline base64 data URL or remote fetch), submits it to the image API,
and finalizes the row as `complete` or `failed`.

External effects (Supabase reads/writes, HTTP fetches, the image API, the
clock) are modelled by an explicit environment `Env`; the handler returns the
HTTP response together with the list of row updates applied by the store and
flags recording which outbound calls were issued.
-/

set_option maxHeartbeats 1000000

/-- A JavaScript/JSON value as far as the handler inspects one: enough to
model truthiness (`!x`), string comparison and pass-through. A missing object
field reads as `undef`. -/
inductive JVal where
  | undef
  | null
  | bool (b : Bool)
  | num (n : Int)
  | str (s : String)
deriving DecidableEq, Repr

/-- JavaScript truthiness of a value (`!x` is its negation). -/
def JVal.truthy : JVal → Bool
  | .undef => false
  | .null => false
  | .bool b => b
  | .num n => n != 0
  | .str s => s != ""

/-! ## Base64 (the JS `atob` builtin used by `base64DataUrlToBlob`) -/

/-- The base64 alphabet in index order. -/
def b64Alphabet : List Char :=
  "ABCDEFGHIJKLMNOPQRSTUVWXYZabcdefghijklmnopqrstuvwxyz0123456789+/".toList

/-- Character for a sextet value. -/
def b64Char (n : Nat) : Char := b64Alphabet.getD n 'A'

/-- Index of a base64 character; `none` when the character is not in the
alphabet (`b64Alphabet.length = 64`, and `List.indexOf` returns the length
when the element is absent). -/
def b64Index (c : Char) : Option Nat :=
  let i := b64Alphabet.indexOf c
  if i < 64 then some i else none

/-- Standard base64 encoding of a byte sequence (the encoding a data-URL
producer applies before the handler decodes it). -/
def b64EncodeBytes : List Nat → List Char
  | [] => []
  | [b1] => [b64Char (b1 / 4), b64Char (b1 % 4 * 16), '=', '=']
  | [b1, b2] => [b64Char (b1 / 4), b64Char (b1 % 4 * 16 + b2 / 16),
      b64Char (b2 % 16 * 4), '=']
  | b1 :: b2 :: b3 :: rest =>
      b64Char (b1 / 4) :: b64Char (b1 % 4 * 16 + b2 / 16) ::
      b64Char (b2 % 16 * 4 + b3 / 64) :: b64Char (b3 % 64) :: b64EncodeBytes rest

/-- Base64 decoding of a character sequence to bytes, following the forgiving
decode implemented by `atob` (optional trailing padding, chunks of four).
`none` models `atob` throwing `InvalidCharacterError`. -/
def b64DecodeChars : List Char → Option (List Nat)
  | [] => some []
  | c1 :: c2 :: rest2 =>
    match b64Index c1, b64Index c2 with
    | some s1, some s2 =>
      match rest2 with
      | [] => some [s1 * 4 + s2 / 16]
      | ['='] => none
      | ['=', '='] => some [s1 * 4 + s2 / 16]
      | c3 :: rest3 =>
        match b64Index c3 with
        | some s3 =>
          match rest3 with
          | [] => some [s1 * 4 + s2 / 16, s2 % 16 * 16 + s3 / 4]
          | ['='] => some [s1 * 4 + s2 / 16, s2 % 16 * 16 + s3 / 4]
          | c4 :: rest4 =>
            match b64Index c4 with
            | some s4 =>
              (b64DecodeChars rest4).map
                (fun bs => (s1 * 4 + s2 / 16) :: (s2 % 16 * 16 + s3 / 4) ::
                  (s3 % 4 * 64 + s4) :: bs)
            | none => none
        | none => none
    | _, _ => none
  | _ => none

/-- ASCII whitespace, stripped by `atob` before decoding. -/
def isAsciiWs (c : Char) : Bool :=
  c = '\t' || c = '\n' || c = '\x0c' || c = '\r' || c = ' '

/-- The `atob` builtin: strip ASCII whitespace, then forgiving base64 decode;
`none` models the thrown `InvalidCharacterError`. -/
def atobBytes (s : List Char) : Option (List Nat) :=
  b64DecodeChars (s.filter (fun c => !isAsciiWs c))

/-! ## Data URLs (`isBase64DataUrl`, `base64DataUrlToBlob`) -/

/-- A `Blob` as the handler builds one: raw bytes plus a media type
(`new Blob([bytes], { type: mimeType })`). -/
structure Blob where
  bytes : List Nat
  mimeType : String
deriving DecidableEq, Repr

/-- The literal characters of `"data:"`. -/
def dataColon : List Char := ['d', 'a', 't', 'a', ':']

/-- `isBase64DataUrl` from the source: `url.startsWith("data:")`, i.e. the
first five characters are `data:`. -/
def isBase64DataUrl (url : String) : Bool :=
  url.toList.take 5 = dataColon

/-- The character class `[A-Za-z-+/]` of the data-URL regex's mime group. -/
def mimeChar (c : Char) : Bool :=
  (('A' ≤ c && c ≤ 'Z') || ('a' ≤ c && c ≤ 'z')) || c = '-' || c = '+' || c = '/'

/-- JavaScript regex line terminators, which `.` does not match. -/
def lineTerm (c : Char) : Bool :=
  c = '\n' || c = '\r' || c = '\u2028' || c = '\u2029'

/-- The literal characters of `";base64,"`. -/
def semiBase64 : List Char := [';', 'b', 'a', 's', 'e', '6', '4', ',']

/-- The regex match `dataUrl.match(/^data:([A-Za-z-+/]+);base64,(.+)$/)`:
returns the mime group and the base64 payload group when the anchored match
succeeds. The mime group is the (necessarily maximal) nonempty run of
`[A-Za-z-+/]` characters; `.` matches every character except line
terminators, so the payload is nonempty and terminator-free. -/
def parseDataUrl (cs : List Char) : Option (List Char × List Char) :=
  if cs.take 5 = dataColon then
    let rest := cs.drop 5
    let mime := rest.takeWhile mimeChar
    let rest2 := rest.dropWhile mimeChar
    if mime = [] then none
    else if rest2.take 8 = semiBase64 then
      let payload := rest2.drop 8
      if payload = [] then none
      else if payload.all (fun c => !lineTerm c) then some (mime, payload)
      else none
    else none
  else none

/-- `base64DataUrlToBlob` from the source: match the data-URL regex (throwing
`"Invalid data URL format"` on failure), decode the base64 payload with
`atob` (whose own failure surfaces as a different error), and build a `Blob`
from the decoded bytes and the captured mime type. -/
def base64DataUrlToBlob (dataUrl : String) : Except String Blob :=
  match parseDataUrl dataUrl.toList with
  | none => .error "Invalid data URL format"
  | some (mime, payload) =>
    match atobBytes payload with
    | none => .error "InvalidCharacterError: the string to be decoded is not correctly encoded"
    | some bytes => .ok { bytes := bytes, mimeType := String.mk mime }

/-- Standard data-URL encoding of bytes under a media type: the inline
encoded-image payload format the spec's round-trip property quantifies over
(`data:<mime>;base64,<base64 of bytes>`). -/
def encodeDataUrl (mime : List Char) (bytes : List Nat) : String :=
  String.mk (dataColon ++ mime ++ semiBase64 ++ b64EncodeBytes bytes)

/-! ## The handler `POST` -/

/-- The nested `body.record` of the webhook notification, with the three
fields the handler reads; a field absent from the JSON object is `undef`. -/
structure RecordFields where
  id : JVal
  input_image_url : JVal
  status : JVal
deriving DecidableEq, Repr

/-- The parsed JSON body; `record := none` models a body with no
`record` object (so `body?.record?.x` is `undefined`). -/
structure WebhookBody where
  record : Option RecordFields
deriving DecidableEq, Repr

/-- One Supabase `update(...).eq("id", id)` call as applied by the store:
only the columns present in the update object are set. -/
structure JobUpdate where
  status : Option String := none
  result_image_url : Option JVal := none
  error_message : Option String := none
  processed_at : Option String := none
deriving DecidableEq, Repr

/-- A stored job row (the columns this handler touches). -/
structure JobRow where
  status : String
  result_image_url : Option JVal := none
  error_message : Option String := none
  processed_at : Option String := none
deriving DecidableEq, Repr

/-- An item of the image API's `data` list; `url := undef` models an element
with no `url` field (`?.url` reads `undefined`). -/
structure OAItem where
  url : JVal
deriving DecidableEq, Repr

/-- The environment: outcomes of the external calls the handler makes.
`fetchError`/`job` are the Supabase `select ... single()` result;
`remoteOk`/`remoteStatusText`/`remoteBlob` the `fetch(input_image_url)`
result; `openAIOk`/`openAIStatus`/`openAIErrorText`/`openAIData` the image
API response (`openAIData := none` models a JSON body without a `data`
list); `updateCompleteError` the error of the success-finalize update (the
only store write whose error the code checks); `now` the clock. -/
structure Env where
  fetchError : Option String := none
  job : Option JobRow := none
  remoteOk : Bool := true
  remoteStatusText : String := ""
  remoteBlob : Blob := { bytes := [], mimeType := "" }
  openAIOk : Bool := true
  openAIStatus : Nat := 200
  openAIErrorText : String := ""
  openAIData : Option (List OAItem) := none
  updateCompleteError : Option String := none
  now : String := ""
deriving DecidableEq, Repr

/-- The JSON body of a `NextResponse.json(...)` reply, plus its HTTP status. -/
structure HResponse where
  status : Nat
  message : Option String := none
  error : Option String := none
  details : Option String := none
  result_image_url : Option JVal := none
deriving DecidableEq, Repr

/-- What one handler invocation did: the HTTP response, the row updates the
store applied (in order, keyed by the `id` they were filtered on), and
whether the remote image fetch and the image API call were issued. -/
structure HandlerOut where
  response : HResponse
  updates : List (JVal × JobUpdate)
  remoteFetchCalled : Bool
  openAICalled : Bool
deriving DecidableEq, Repr

/-- Whether the remote-image branch issues an HTTP GET: only a string
`input_image_url` without the `data:` prefix reaches `fetch`. -/
def remoteFetchNeeded : JVal → Bool
  | .str s => !isBase64DataUrl s
  | _ => false

/-- Image acquisition (step inside the inner `try`): a `data:` string is
decoded with `base64DataUrlToBlob`; any other string is fetched, a
non-success response throwing
`` `Failed to download input image: ${imageResponse.statusText}` ``. A
non-string truthy value throws a `TypeError` from `url.startsWith`. -/
def acquireImage (env : Env) : JVal → Except String Blob
  | .str s =>
    if isBase64DataUrl s then base64DataUrlToBlob s
    else if env.remoteOk then .ok env.remoteBlob
    else .error ("Failed to download input image: " ++ env.remoteStatusText)
  | _ => .error "TypeError: url.startsWith is not a function"

/-- `openAIResult?.data?.[0]?.url`: the `url` of the first element of the
response's `data` list, `undef` when the list is absent or empty. -/
def openAIResultUrl (env : Env) : JVal :=
  match env.openAIData with
  | none => .undef
  | some items =>
    match items.head? with
    | none => .undef
    | some it => it.url

/-- The image-API call: a non-success response throws
`` `OpenAI API error: ${status} ${errorText}` ``; a falsy
`openAIResult?.data?.[0]?.url` throws the missing-result error; otherwise
the result URL is returned. -/
def openAICall (env : Env) : Except String JVal :=
  if !env.openAIOk then
    .error ("OpenAI API error: " ++ toString env.openAIStatus ++ " " ++ env.openAIErrorText)
  else if (openAIResultUrl env).truthy then .ok (openAIResultUrl env)
  else .error "OpenAI API did not return a result image URL"

/-- The inner `try` pipeline: acquire the image, call the image API, then
issue the success-finalize update; if that update reports an error, throw
`` `Failed to update job in Supabase: ${updateError.message}` ``. Returns
the result URL on success, the thrown error text otherwise. -/
def pipeline (env : Env) (url : JVal) : Except String JVal :=
  match acquireImage env url with
  | .error e => .error e
  | .ok _ =>
    match openAICall env with
    | .error e => .error e
    | .ok resultImageUrl =>
      match env.updateCompleteError with
      | some m => .error ("Failed to update job in Supabase: " ++ m)
      | none => .ok resultImageUrl

/-- The handler `POST` from the source, as a function of the environment and
the parsed body. Updates are listed in issue order; the success-finalize
update appears only when the store applied it (i.e. reported no error). -/
def POST (env : Env) (body : WebhookBody) : HandlerOut :=
  match body.record with
  | none =>
    { response := { status := 400, error := some "Invalid payload: Missing required fields" },
      updates := [], remoteFetchCalled := false, openAICalled := false }
  | some r =>
    if !(r.id.truthy && r.input_image_url.truthy && r.status.truthy) then
      { response := { status := 400, error := some "Invalid payload: Missing required fields" },
        updates := [], remoteFetchCalled := false, openAICalled := false }
    else if r.status != JVal.str "pending" then
      { response := { status := 200, message := some "Job is not in pending status; no action taken." },
        updates := [], remoteFetchCalled := false, openAICalled := false }
    else if env.fetchError.isSome || env.job.isNone then
      { response :=
          { status := 500, error := some "Failed to fetch job from Supabase",
            details := env.fetchError },
        updates := [], remoteFetchCalled := false, openAICalled := false }
    else
      let claim := (r.id, ({ status := some "processing" } : JobUpdate))
      let fetched := remoteFetchNeeded r.input_image_url
      match pipeline env r.input_image_url with
      | .ok resultImageUrl =>
        { response :=
            { status := 200, message := some "Job processed successfully",
              result_image_url := some resultImageUrl },
          updates := [claim,
            (r.id,
              { status := some "complete", result_image_url := some resultImageUrl,
                processed_at := some env.now })],
          remoteFetchCalled := fetched,
          openAICalled := (acquireImage env r.input_image_url).isOk }
      | .error e =>
        { response :=
            { status := 500, error := some "Job processing failed", details := some e },
          updates := [claim,
            (r.id,
              { status := some "failed", error_message := some e,
                processed_at := some env.now })],
          remoteFetchCalled := fetched,
          openAICalled := (acquireImage env r.input_image_url).isOk }

/-- Apply one update object to a row: a column named in the update is set,
the others keep their stored values. -/
def applyUpdate (row : JobRow) (u : JobUpdate) : JobRow :=
  { status := u.status.getD row.status,
    result_image_url := match u.result_image_url with
      | some v => some v
      | none => row.result_image_url,
    error_message := match u.error_message with
      | some v => some v
      | none => row.error_message,
    processed_at := match u.processed_at with
      | some v => some v
      | none => row.processed_at }

/-- Apply an update call to the store's row for `rowId`: the call mutates the
row only when its `.eq("id", ...)` key matches. -/
def applyCall (rowId : JVal) (row : JobRow) (call : JVal × JobUpdate) : JobRow :=
  if call.1 = rowId then applyUpdate row call.2 else row

/-- One delivery against a store holding the single row `store.2` under id
`store.1`: the handler runs with the store's current row as the fetch
result, and the store applies the issued updates in order. -/
def runDelivery (store : JVal × JobRow) (env : Env) (body : WebhookBody) : JVal × JobRow :=
  let out := POST { env with fetchError := none, job := some store.2 } body
  (store.1, out.updates.foldl (applyCall store.1) store.2)

/-! ## Concrete fixtures -/

/-- A freshly inserted job row. -/
def rowPending : JobRow := { status := "pending" }

/-- A job row already finalized as complete. -/
def rowComplete : JobRow :=
  { status := "complete", result_image_url := some (.str "http://img.example/old.png"),
    processed_at := some "2026-01-01T00:00:00Z" }

/-- The record of a pending-insert notification with a remote image URL. -/
def recPending : RecordFields :=
  { id := .str "job-1", input_image_url := .str "http://example.com/cat.png",
    status := .str "pending" }

def bodyPending : WebhookBody := { record := some recPending }

/-- The same notification but with a non-pending status snapshot. -/
def bodyDone : WebhookBody :=
  { record := some { recPending with status := .str "done" } }

/-- A notification whose status field is present but empty (falsy). -/
def bodyEmptyStatus : WebhookBody :=
  { record := some { recPending with status := .str "" } }

/-- A notification whose status field is missing. -/
def bodyMissingStatus : WebhookBody :=
  { record := some { recPending with status := .undef } }

/-- A pending notification whose image is an inline base64 data URL. -/
def bodyDataUrl : WebhookBody :=
  { record := some { recPending with input_image_url := .str "data:image/png;base64,AQID" } }

/-- An environment in which every external call succeeds. -/
def envSuccess : Env :=
  { job := some rowPending,
    openAIData := some [{ url := .str "http://img.example/result.png" }],
    now := "2026-02-02T00:00:00Z" }

/-- As `envSuccess` but the remote image fetch returns a non-success status. -/
def envFetchFail : Env :=
  { envSuccess with remoteOk := false, remoteStatusText := "Not Found" }

/-- As `envSuccess` but the success-finalize store write reports an error. -/
def envUpdateFail : Env :=
  { envSuccess with updateCompleteError := some "duplicate key" }

/-- A store holding the single fresh pending row under id `job-1`. -/
def storePending : JVal × JobRow := (JVal.str "job-1", rowPending)

/-! ## Parse and encode lemmas -/

theorem b64EncodeBytes_ne_nil (bs : List Nat) (h : bs ≠ []) : b64EncodeBytes bs ≠ [] := by
  match bs with
  | [] => exact absurd rfl h
  | [b1] => simp [b64EncodeBytes]
  | [b1, b2] => simp [b64EncodeBytes]
  | b1 :: b2 :: b3 :: rest => simp [b64EncodeBytes]

theorem mem_b64EncodeBytes (bs : List Nat) (hb : ∀ b ∈ bs, b < 256) (c : Char)
    (hc : c ∈ b64EncodeBytes bs) : c = '=' ∨ ∃ n, n < 64 ∧ c = b64Char n := by
  induction bs using b64EncodeBytes.induct with
  | case1 => simp [b64EncodeBytes] at hc
  | case2 b1 =>
    have h1 : b1 < 256 := hb b1 (by simp)
    simp only [b64EncodeBytes, List.mem_cons, List.not_mem_nil, or_false] at hc
    rcases hc with h | h | h | h
    · exact Or.inr ⟨b1 / 4, by omega, h⟩
    · exact Or.inr ⟨b1 % 4 * 16, by omega, h⟩
    · exact Or.inl h
    · exact Or.inl h
  | case3 b1 b2 =>
    have h1 : b1 < 256 := hb b1 (by simp)
    have h2 : b2 < 256 := hb b2 (by simp)
    simp only [b64EncodeBytes, List.mem_cons, List.not_mem_nil, or_false] at hc
    rcases hc with h | h | h | h
    · exact Or.inr ⟨b1 / 4, by omega, h⟩
    · exact Or.inr ⟨b1 % 4 * 16 + b2 / 16, by omega, h⟩
    · exact Or.inr ⟨b2 % 16 * 4, by omega, h⟩
    · exact Or.inl h
  | case4 b1 b2 b3 rest ih =>
    have h1 : b1 < 256 := hb b1 (by simp)
    have h2 : b2 < 256 := hb b2 (by simp)
    have h3 : b3 < 256 := hb b3 (by simp)
    have hrest : ∀ b ∈ rest, b < 256 := fun b hm => hb b (by simp [hm])
    simp only [b64EncodeBytes, List.mem_cons] at hc
    rcases hc with h | h | h | h | h
    · exact Or.inr ⟨b1 / 4, by omega, h⟩
    · exact Or.inr ⟨b1 % 4 * 16 + b2 / 16, by omega, h⟩
    · exact Or.inr ⟨b2 % 16 * 4 + b3 / 64, by omega, h⟩
    · exact Or.inr ⟨b3 % 64, by omega, h⟩
    · exact ih hrest h

theorem takeWhile_append_middle (p : Char → Bool) (c : Char) (l2 : List Char)
    (hc : p c = false) :
    ∀ l1 : List Char, (∀ x ∈ l1, p x = true) → (l1 ++ c :: l2).takeWhile p = l1 := by
  intro l1
  induction l1 with
  | nil => intro _; simp [List.takeWhile_cons, hc]
  | cons a l ih =>
    intro h
    have ha : p a = true := h a (by simp)
    simp only [List.cons_append, List.takeWhile_cons, ha, if_true]
    rw [ih (fun x hx => h x (by simp [hx]))]

theorem dropWhile_append_middle (p : Char → Bool) (c : Char) (l2 : List Char)
    (hc : p c = false) :
    ∀ l1 : List Char, (∀ x ∈ l1, p x = true) → (l1 ++ c :: l2).dropWhile p = c :: l2 := by
  intro l1
  induction l1 with
  | nil => intro _; simp [List.dropWhile_cons, hc]
  | cons a l ih =>
    intro h
    have ha : p a = true := h a (by simp)
    simp only [List.cons_append, List.dropWhile_cons, ha, if_true]
    exact ih (fun x hx => h x (by simp [hx]))

/-- Soundness of the regex model: a successful match decomposes the input as
`data:` ++ mime ++ `;base64,` ++ payload with a nonempty all-`[A-Za-z-+/]`
mime and a nonempty, line-terminator-free payload. -/
theorem parseDataUrl_some_decomp (cs m p : List Char)
    (h : parseDataUrl cs = some (m, p)) :
    cs = dataColon ++ m ++ semiBase64 ++ p ∧ m ≠ [] ∧ (∀ x ∈ m, mimeChar x = true) ∧
      p ≠ [] ∧ (∀ x ∈ p, lineTerm x = false) := by
  unfold parseDataUrl at h
  by_cases h5 : cs.take 5 = dataColon
  · rw [if_pos h5] at h
    by_cases hm : (cs.drop 5).takeWhile mimeChar = []
    · rw [if_pos hm] at h
      exact absurd h (by simp)
    · rw [if_neg hm] at h
      by_cases h8 : ((cs.drop 5).dropWhile mimeChar).take 8 = semiBase64
      · rw [if_pos h8] at h
        by_cases hp : ((cs.drop 5).dropWhile mimeChar).drop 8 = []
        · rw [if_pos hp] at h
          exact absurd h (by simp)
        · rw [if_neg hp] at h
          by_cases hl : (((cs.drop 5).dropWhile mimeChar).drop 8).all (fun c => !lineTerm c)
          · rw [if_pos hl, Option.some.injEq, Prod.mk.injEq] at h
            obtain ⟨hm2, hp2⟩ := h
            subst hm2
            subst hp2
            refine ⟨?_, hm, ?_, hp, ?_⟩
            · calc cs = cs.take 5 ++ cs.drop 5 := (List.take_append_drop _ _).symm
                _ = dataColon ++ cs.drop 5 := by rw [h5]
                _ = dataColon ++ ((cs.drop 5).takeWhile mimeChar ++
                      (cs.drop 5).dropWhile mimeChar) := by
                    rw [List.takeWhile_append_dropWhile]
                _ = dataColon ++ ((cs.drop 5).takeWhile mimeChar ++
                      (((cs.drop 5).dropWhile mimeChar).take 8 ++
                        ((cs.drop 5).dropWhile mimeChar).drop 8)) := by
                    rw [List.take_append_drop]
                _ = dataColon ++ ((cs.drop 5).takeWhile mimeChar ++
                      (semiBase64 ++ ((cs.drop 5).dropWhile mimeChar).drop 8)) := by
                    rw [h8]
                _ = dataColon ++ (cs.drop 5).takeWhile mimeChar ++ semiBase64 ++
                      ((cs.drop 5).dropWhile mimeChar).drop 8 := by
                    simp [List.append_assoc]
            · exact fun x hx => List.mem_takeWhile_imp hx
            · intro x hx
              have := List.all_eq_true.mp hl x hx
              simpa using this
          · rw [if_neg hl] at h
            exact absurd h (by simp)
      · rw [if_neg h8] at h
        exact absurd h (by simp)
  · rw [if_neg h5] at h
    exact absurd h (by simp)

/-- Completeness of the regex model: any such decomposition makes the match
succeed with exactly those groups. -/
theorem parseDataUrl_of_decomp (m p : List Char) (hm : m ≠ [])
    (hmc : ∀ x ∈ m, mimeChar x = true) (hp : p ≠ [])
    (hl : ∀ x ∈ p, lineTerm x = false) :
    parseDataUrl (dataColon ++ m ++ semiBase64 ++ p) = some (m, p) := by
  have hsemi : mimeChar ';' = false := by decide
  have hrest : (dataColon ++ m ++ semiBase64 ++ p).drop 5 = m ++ semiBase64 ++ p := by
    rw [List.append_assoc, List.append_assoc]
    have : (5 : Nat) = dataColon.length := by decide
    rw [this, List.drop_left, ← List.append_assoc]
  have hsplit : m ++ semiBase64 ++ p = m ++ ';' :: (semiBase64.tail ++ p) := by
    simp [semiBase64]
  have htw : (m ++ semiBase64 ++ p).takeWhile mimeChar = m := by
    rw [hsplit]
    exact takeWhile_append_middle mimeChar ';' _ hsemi m hmc
  have hdw : (m ++ semiBase64 ++ p).dropWhile mimeChar = semiBase64 ++ p := by
    rw [hsplit]
    rw [dropWhile_append_middle mimeChar ';' _ hsemi m hmc]
    simp [semiBase64]
  have htake8 : (semiBase64 ++ p).take 8 = semiBase64 := by
    have : (8 : Nat) = semiBase64.length := by decide
    rw [this, List.take_left]
  have hdrop8 : (semiBase64 ++ p).drop 8 = p := by
    have : (8 : Nat) = semiBase64.length := by decide
    rw [this, List.drop_left]
  have htake5 : (dataColon ++ m ++ semiBase64 ++ p).take 5 = dataColon := by
    rw [List.append_assoc, List.append_assoc]
    have : (5 : Nat) = dataColon.length := by decide
    rw [this, List.take_left]
  simp only [parseDataUrl]
  rw [if_pos htake5, hrest, htw, hdw, htake8, hdrop8, if_neg hm, if_pos rfl, if_neg hp,
    if_pos (List.all_eq_true.mpr (fun x hx => by simp [hl x hx]))]

/-! ## Base64 lemmas -/

theorem b64Index_b64Char : ∀ n < 64, b64Index (b64Char n) = some n := by decide

theorem b64Char_ne_pad : ∀ n < 64, b64Char n ≠ '=' := by decide

theorem b64Char_not_ws : ∀ n < 64, isAsciiWs (b64Char n) = false := by decide

theorem b64Char_not_lineTerm : ∀ n < 64, lineTerm (b64Char n) = false := by decide

/-- Decoding inverts encoding on byte sequences. -/
theorem b64DecodeChars_b64EncodeBytes (bs : List Nat) (h : ∀ b ∈ bs, b < 256) :
    b64DecodeChars (b64EncodeBytes bs) = some bs := by
  induction bs using b64EncodeBytes.induct with
  | case1 => rfl
  | case2 b1 =>
    have hb : b1 < 256 := h b1 (by simp)
    have h1 : b1 / 4 < 64 := by omega
    have h2 : b1 % 4 * 16 < 64 := by omega
    simp only [b64EncodeBytes, b64DecodeChars, b64Index_b64Char _ h1, b64Index_b64Char _ h2]
    congr 2
    omega
  | case3 b1 b2 =>
    have hb1 : b1 < 256 := h b1 (by simp)
    have hb2 : b2 < 256 := h b2 (by simp)
    have h1 : b1 / 4 < 64 := by omega
    have h2 : b1 % 4 * 16 + b2 / 16 < 64 := by omega
    have h3 : b2 % 16 * 4 < 64 := by omega
    have hne : b64Char (b2 % 16 * 4) ≠ '=' := b64Char_ne_pad _ h3
    have hidx : b64Index (b64Char (b2 % 16 * 4)) = some (b2 % 16 * 4) := b64Index_b64Char _ h3
    simp only [b64EncodeBytes, b64DecodeChars, b64Index_b64Char _ h1, b64Index_b64Char _ h2]
    split
    next heq => exact absurd heq (by simp)
    next heq => exact absurd heq (by simp)
    next heq =>
      exfalso
      rw [List.cons.injEq] at heq
      exact hne heq.1
    next c3 rest3 heq =>
      rw [List.cons.injEq] at heq
      obtain ⟨hc3, hr3⟩ := heq
      subst hc3
      subst hr3
      rw [hidx]
      simp only [Option.some.injEq, List.cons.injEq, and_true]
      omega
  | case4 b1 b2 b3 rest ih =>
    have hb1 : b1 < 256 := h b1 (by simp)
    have hb2 : b2 < 256 := h b2 (by simp)
    have hb3 : b3 < 256 := h b3 (by simp)
    have hrest : ∀ b ∈ rest, b < 256 := fun b hb => h b (by simp [hb])
    have h1 : b1 / 4 < 64 := by omega
    have h2 : b1 % 4 * 16 + b2 / 16 < 64 := by omega
    have h3 : b2 % 16 * 4 + b3 / 64 < 64 := by omega
    have h4 : b3 % 64 < 64 := by omega
    have hne3 : b64Char (b2 % 16 * 4 + b3 / 64) ≠ '=' := b64Char_ne_pad _ h3
    have hne4 : b64Char (b3 % 64) ≠ '=' := b64Char_ne_pad _ h4
    have hidx3 : b64Index (b64Char (b2 % 16 * 4 + b3 / 64)) = some (b2 % 16 * 4 + b3 / 64) :=
      b64Index_b64Char _ h3
    have hidx4 : b64Index (b64Char (b3 % 64)) = some (b3 % 64) := b64Index_b64Char _ h4
    simp only [b64EncodeBytes, b64DecodeChars, b64Index_b64Char _ h1, b64Index_b64Char _ h2]
    split
    next heq => exact absurd heq (by simp)
    next heq =>
      rw [List.cons.injEq] at heq
      exact absurd heq.2 (by simp)
    next heq =>
      exfalso
      rw [List.cons.injEq] at heq
      exact hne3 heq.1
    next c3 rest3 heq =>
      rw [List.cons.injEq] at heq
      obtain ⟨hc3, hr3⟩ := heq
      subst hc3
      subst hr3
      split
      next s3 heq2 =>
        rw [hidx3] at heq2
        injection heq2 with hs3
        subst hs3
        split
        next heq3 => exact absurd heq3 (by simp)
        next heq3 =>
          exfalso
          rw [List.cons.injEq] at heq3
          exact hne4 heq3.1
        next c4 rest4 heq3 =>
          rw [List.cons.injEq] at heq3
          obtain ⟨hc4, hr4⟩ := heq3
          subst hc4
          subst hr4
          split
          next s4 heq4 =>
            rw [hidx4] at heq4
            injection heq4 with hs4
            subst hs4
            rw [ih hrest]
            simp only [Option.map_some', Option.some.injEq, List.cons.injEq, and_true, true_and]
            omega
          next heq4 =>
            rw [hidx4] at heq4
            exact absurd heq4 (by simp)
      next heq2 =>
        rw [hidx3] at heq2
        exact absurd heq2 (by simp)

/-! ## Glue lemmas: encoded payloads through `atob` and the regex -/

theorem b64EncodeBytes_filter_ws (bs : List Nat) (hb : ∀ b ∈ bs, b < 256) :
    (b64EncodeBytes bs).filter (fun c => !isAsciiWs c) = b64EncodeBytes bs := by
  rw [List.filter_eq_self]
  intro a ha
  rcases mem_b64EncodeBytes bs hb a ha with h | ⟨n, hn, h⟩
  · subst h; decide
  · subst h
    simp [b64Char_not_ws n hn]

theorem b64EncodeBytes_no_lineTerm (bs : List Nat) (hb : ∀ b ∈ bs, b < 256) :
    ∀ x ∈ b64EncodeBytes bs, lineTerm x = false := by
  intro a ha
  rcases mem_b64EncodeBytes bs hb a ha with h | ⟨n, hn, h⟩
  · subst h; decide
  · subst h
    exact b64Char_not_lineTerm n hn

theorem atobBytes_b64EncodeBytes (bs : List Nat) (hb : ∀ b ∈ bs, b < 256) :
    atobBytes (b64EncodeBytes bs) = some bs := by
  unfold atobBytes
  rw [b64EncodeBytes_filter_ws bs hb]
  exact b64DecodeChars_b64EncodeBytes bs hb

/-- The decoder throws the format error exactly when the regex fails. -/
theorem base64DataUrlToBlob_format_iff (u : String) :
    base64DataUrlToBlob u = .error "Invalid data URL format" ↔
      parseDataUrl u.toList = none := by
  unfold base64DataUrlToBlob
  cases h : parseDataUrl u.toList with
  | none => simp [h]
  | some mp =>
    obtain ⟨m, p⟩ := mp
    cases h2 : atobBytes p with
    | none => simp [h, h2]
    | some bytes => simp [h, h2]

/-! ## Handler path lemmas -/

theorem POST_guard_fail (env : Env) (body : WebhookBody) (r : RecordFields)
    (hrec : body.record = some r)
    (h : (r.id.truthy && r.input_image_url.truthy && r.status.truthy) = false) :
    POST env body =
      { response := { status := 400, error := some "Invalid payload: Missing required fields" },
        updates := [], remoteFetchCalled := false, openAICalled := false } := by
  obtain ⟨rec⟩ := body
  simp only [WebhookBody.record] at hrec
  subst hrec
  simp [POST, h]

theorem POST_nonpending (env : Env) (body : WebhookBody) (r : RecordFields)
    (hrec : body.record = some r) (hid : r.id.truthy = true)
    (hurl : r.input_image_url.truthy = true) (hst : r.status.truthy = true)
    (hne : r.status ≠ JVal.str "pending") :
    POST env body =
      { response :=
          { status := 200, message := some "Job is not in pending status; no action taken." },
        updates := [], remoteFetchCalled := false, openAICalled := false } := by
  obtain ⟨rec⟩ := body
  simp only [WebhookBody.record] at hrec
  subst hrec
  have hbne : (r.status != JVal.str "pending") = true := by
    simp [bne_iff_ne, hne]
  simp [POST, hid, hurl, hst, hbne]

theorem POST_pipeline_ok (env : Env) (body : WebhookBody) (r : RecordFields) (row : JobRow)
    (ru : JVal) (hrec : body.record = some r) (hid : r.id.truthy = true)
    (hurl : r.input_image_url.truthy = true) (hst : r.status = JVal.str "pending")
    (hfe : env.fetchError = none) (hjob : env.job = some row)
    (hpipe : pipeline env r.input_image_url = Except.ok ru) :
    POST env body =
      { response :=
          { status := 200, message := some "Job processed successfully",
            result_image_url := some ru },
        updates := [(r.id, { status := some "processing" }),
          (r.id,
            { status := some "complete", result_image_url := some ru,
              processed_at := some env.now })],
        remoteFetchCalled := remoteFetchNeeded r.input_image_url,
        openAICalled := (acquireImage env r.input_image_url).isOk } := by
  obtain ⟨rec⟩ := body
  simp only [WebhookBody.record] at hrec
  subst hrec
  have hsttruthy : r.status.truthy = true := by rw [hst]; decide
  have hbne : (r.status != JVal.str "pending") = false := by
    simp [hst]
  simp [POST, hid, hurl, hsttruthy, hbne, hfe, hjob, hpipe]

theorem POST_pipeline_err (env : Env) (body : WebhookBody) (r : RecordFields) (row : JobRow)
    (e : String) (hrec : body.record = some r) (hid : r.id.truthy = true)
    (hurl : r.input_image_url.truthy = true) (hst : r.status = JVal.str "pending")
    (hfe : env.fetchError = none) (hjob : env.job = some row)
    (hpipe : pipeline env r.input_image_url = Except.error e) :
    POST env body =
      { response :=
          { status := 500, error := some "Job processing failed", details := some e },
        updates := [(r.id, { status := some "processing" }),
          (r.id,
            { status := some "failed", error_message := some e,
              processed_at := some env.now })],
        remoteFetchCalled := remoteFetchNeeded r.input_image_url,
        openAICalled := (acquireImage env r.input_image_url).isOk } := by
  obtain ⟨rec⟩ := body
  simp only [WebhookBody.record] at hrec
  subst hrec
  have hsttruthy : r.status.truthy = true := by rw [hst]; decide
  have hbne : (r.status != JVal.str "pending") = false := by
    simp [hst]
  simp [POST, hid, hurl, hsttruthy, hbne, hfe, hjob, hpipe]

/-! ## Claim theorems -/

/-- C1: for a notification whose payload status is `pending`, whose job row
loads successfully, whose image acquisition succeeds, whose image-API call
returns success with a (truthy) result URL, and whose final store update
succeeds, the handler writes the row update with `status = complete`,
`result_image_url` equal to the URL returned by the image API (the `url` of
the first element of the response's `data` list), and `processed_at` set, and
returns HTTP 200 carrying that same `result_image_url`. -/
theorem C1_success_finalizes_complete (env : Env) (body : WebhookBody) (r : RecordFields)
    (row : JobRow) (blob : Blob) (hrec : body.record = some r) (hid : r.id.truthy = true)
    (hurl : r.input_image_url.truthy = true) (hst : r.status = JVal.str "pending")
    (hfe : env.fetchError = none) (hjob : env.job = some row)
    (hacq : acquireImage env r.input_image_url = Except.ok blob)
    (hoai : env.openAIOk = true) (hres : (openAIResultUrl env).truthy = true)
    (hupd : env.updateCompleteError = none) :
    (POST env body).response.status = 200 ∧
    (POST env body).response.result_image_url = some (openAIResultUrl env) ∧
    (POST env body).updates =
      [(r.id, { status := some "processing" }),
       (r.id,
         { status := some "complete", result_image_url := some (openAIResultUrl env),
           processed_at := some env.now })] := by
  have hpipe : pipeline env r.input_image_url = Except.ok (openAIResultUrl env) := by
    unfold pipeline
    rw [hacq]
    unfold openAICall
    rw [hoai, hupd]
    simp [hres]
  rw [POST_pipeline_ok env body r row (openAIResultUrl env) hrec hid hurl hst hfe hjob hpipe]
  exact ⟨rfl, rfl, rfl⟩

theorem C1_witness :
    (POST envSuccess bodyPending).response.status = 200 ∧
    (POST envSuccess bodyPending).response.result_image_url =
      some (openAIResultUrl envSuccess) ∧
    (POST envSuccess bodyPending).updates =
      [(recPending.id, { status := some "processing" }),
       (recPending.id,
         { status := some "complete", result_image_url := some (openAIResultUrl envSuccess),
           processed_at := some envSuccess.now })] :=
  C1_success_finalizes_complete envSuccess bodyPending recPending rowPending
    envSuccess.remoteBlob rfl (by decide) (by decide) rfl rfl rfl (by rfl) rfl (by decide) rfl

/-- C2: every error raised in the acquire-image / submit-to-API / finalize
pipeline is caught at the single pipeline boundary: the handler issues the
failed-update with `status = failed`, `error_message` equal to the error
text and `processed_at` set, and responds HTTP 500 with those details. -/
theorem C2_pipeline_error_finalizes_failed (env : Env) (body : WebhookBody)
    (r : RecordFields) (row : JobRow) (e : String) (hrec : body.record = some r)
    (hid : r.id.truthy = true) (hurl : r.input_image_url.truthy = true)
    (hst : r.status = JVal.str "pending") (hfe : env.fetchError = none)
    (hjob : env.job = some row) (hpipe : pipeline env r.input_image_url = Except.error e) :
    (POST env body).updates =
      [(r.id, { status := some "processing" }),
       (r.id,
         { status := some "failed", error_message := some e,
           processed_at := some env.now })] ∧
    (POST env body).response.status = 500 ∧
    (POST env body).response.error = some "Job processing failed" ∧
    (POST env body).response.details = some e := by
  rw [POST_pipeline_err env body r row e hrec hid hurl hst hfe hjob hpipe]
  exact ⟨rfl, rfl, rfl, rfl⟩

theorem C2_witness :
    (POST envFetchFail bodyPending).updates =
      [(recPending.id, { status := some "processing" }),
       (recPending.id,
         { status := some "failed",
           error_message := some "Failed to download input image: Not Found",
           processed_at := some envFetchFail.now })] ∧
    (POST envFetchFail bodyPending).response.status = 500 ∧
    (POST envFetchFail bodyPending).response.error = some "Job processing failed" ∧
    (POST envFetchFail bodyPending).response.details =
      some "Failed to download input image: Not Found" :=
  C2_pipeline_error_finalizes_failed envFetchFail bodyPending recPending rowPending
    "Failed to download input image: Not Found" rfl (by decide) (by decide) rfl rfl rfl (by rfl)

/-- C6: when the store update finalizing success itself returns an error, the
handler never reports success: the error propagates into the failure path,
the job is marked failed, and the response is HTTP 500 without any
`result_image_url`. -/
theorem C6_finalize_write_error_fails (env : Env) (body : WebhookBody) (r : RecordFields)
    (row : JobRow) (blob : Blob) (m : String) (hrec : body.record = some r)
    (hid : r.id.truthy = true) (hurl : r.input_image_url.truthy = true)
    (hst : r.status = JVal.str "pending") (hfe : env.fetchError = none)
    (hjob : env.job = some row)
    (hacq : acquireImage env r.input_image_url = Except.ok blob)
    (hoai : env.openAIOk = true) (hres : (openAIResultUrl env).truthy = true)
    (hupd : env.updateCompleteError = some m) :
    (POST env body).response.status = 500 ∧
    (POST env body).response.result_image_url = none ∧
    (POST env body).updates =
      [(r.id, { status := some "processing" }),
       (r.id,
         { status := some "failed",
           error_message := some ("Failed to update job in Supabase: " ++ m),
           processed_at := some env.now })] := by
  have hpipe : pipeline env r.input_image_url =
      Except.error ("Failed to update job in Supabase: " ++ m) := by
    unfold pipeline
    rw [hacq]
    unfold openAICall
    rw [hoai, hupd]
    simp [hres]
  rw [POST_pipeline_err env body r row _ hrec hid hurl hst hfe hjob hpipe]
  exact ⟨rfl, rfl, rfl⟩

theorem C6_witness :
    (POST envUpdateFail bodyPending).response.status = 500 ∧
    (POST envUpdateFail bodyPending).response.result_image_url = none ∧
    (POST envUpdateFail bodyPending).updates =
      [(recPending.id, { status := some "processing" }),
       (recPending.id,
         { status := some "failed",
           error_message := some ("Failed to update job in Supabase: " ++ "duplicate key"),
           processed_at := some envUpdateFail.now })] :=
  C6_finalize_write_error_fails envUpdateFail bodyPending recPending rowPending
    envUpdateFail.remoteBlob "duplicate key" rfl (by decide) (by decide) rfl rfl rfl (by rfl) rfl
    (by decide) rfl

/-- C5: when `id`, `input_image_url` or `status` is missing from the nested
record, the handler responds HTTP 400 and performs no store mutation and no
outbound image or API call. -/
theorem C5_missing_field_rejected (env : Env) (body : WebhookBody) (r : RecordFields)
    (hrec : body.record = some r)
    (h : r.id = JVal.undef ∨ r.input_image_url = JVal.undef ∨ r.status = JVal.undef) :
    (POST env body).response.status = 400 ∧ (POST env body).updates = [] ∧
    (POST env body).remoteFetchCalled = false ∧ (POST env body).openAICalled = false := by
  have hg : (r.id.truthy && r.input_image_url.truthy && r.status.truthy) = false := by
    rcases h with h | h | h <;> simp [h, JVal.truthy]
  rw [POST_guard_fail env body r hrec hg]
  exact ⟨rfl, rfl, rfl, rfl⟩

theorem C5_witness :
    (POST envSuccess bodyMissingStatus).response.status = 400 ∧
    (POST envSuccess bodyMissingStatus).updates = [] ∧
    (POST envSuccess bodyMissingStatus).remoteFetchCalled = false ∧
    (POST envSuccess bodyMissingStatus).openAICalled = false :=
  C5_missing_field_rejected envSuccess bodyMissingStatus
    { recPending with status := .undef } rfl (Or.inr (Or.inr rfl))

/-- C9: the required-field check is a falsiness check, not a presence check —
a record field that is present but falsy (empty string, 0, false, null) is
treated as missing: the handler responds HTTP 400 with no store mutation. -/
theorem C9_falsy_field_rejected (env : Env) (body : WebhookBody) (r : RecordFields)
    (hrec : body.record = some r)
    (h : (r.id ≠ JVal.undef ∧ r.id.truthy = false) ∨
      (r.input_image_url ≠ JVal.undef ∧ r.input_image_url.truthy = false) ∨
      (r.status ≠ JVal.undef ∧ r.status.truthy = false)) :
    (POST env body).response.status = 400 ∧ (POST env body).updates = [] := by
  have hg : (r.id.truthy && r.input_image_url.truthy && r.status.truthy) = false := by
    rcases h with ⟨_, h⟩ | ⟨_, h⟩ | ⟨_, h⟩ <;> simp [h]
  rw [POST_guard_fail env body r hrec hg]
  exact ⟨rfl, rfl⟩

theorem C9_witness :
    (POST envSuccess bodyEmptyStatus).response.status = 400 ∧
    (POST envSuccess bodyEmptyStatus).updates = [] :=
  C9_falsy_field_rejected envSuccess bodyEmptyStatus { recPending with status := .str "" }
    rfl (Or.inr (Or.inr ⟨by decide, by decide⟩))

/-- C4 counterexample: a payload whose `status` field is present (the string
`""`) and not equal to `"pending"` is answered with HTTP 400, not 200,
because the falsiness guard fires first. -/
theorem C4_counterexample :
    bodyEmptyStatus.record = some { recPending with status := JVal.str "" } ∧
    JVal.str "" ≠ JVal.str "pending" ∧
    (POST envSuccess bodyEmptyStatus).response.status = 400 := by
  refine ⟨rfl, by decide, rfl⟩

/-- C4 (amended): for a payload whose three required fields are truthy and
whose `status` is not `"pending"`, the handler returns HTTP 200 with an
informational message, performs no store update, makes no image fetch and no
image-API call; and a delivery observing such a status leaves the stored row
unchanged. -/
theorem C4_truthy_nonpending_noop (env : Env) (body : WebhookBody) (r : RecordFields)
    (store : JVal × JobRow) (hrec : body.record = some r) (hid : r.id.truthy = true)
    (hurl : r.input_image_url.truthy = true) (hst : r.status.truthy = true)
    (hne : r.status ≠ JVal.str "pending") :
    (POST env body).response.status = 200 ∧
    (POST env body).response.message = some "Job is not in pending status; no action taken." ∧
    (POST env body).updates = [] ∧
    (POST env body).remoteFetchCalled = false ∧
    (POST env body).openAICalled = false ∧
    runDelivery store env body = store := by
  have hpost := POST_nonpending env body r hrec hid hurl hst hne
  have hpost2 := POST_nonpending { env with fetchError := none, job := some store.2 } body r
    hrec hid hurl hst hne
  refine ⟨by rw [hpost], by rw [hpost], by rw [hpost], by rw [hpost], by rw [hpost], ?_⟩
  simp only [runDelivery, hpost2, List.foldl_nil]

theorem C4_witness :
    (POST envSuccess bodyDone).response.status = 200 ∧
    (POST envSuccess bodyDone).response.message =
      some "Job is not in pending status; no action taken." ∧
    (POST envSuccess bodyDone).updates = [] ∧
    (POST envSuccess bodyDone).remoteFetchCalled = false ∧
    (POST envSuccess bodyDone).openAICalled = false ∧
    runDelivery (JVal.str "job-1", rowComplete) envSuccess bodyDone =
      (JVal.str "job-1", rowComplete) :=
  C4_truthy_nonpending_noop envSuccess bodyDone { recPending with status := .str "done" }
    (JVal.str "job-1", rowComplete) rfl (by decide) (by decide) (by decide) (by decide)

/-- C3 counterexample: `complete` is not terminal against redelivery — a
stored row already in `complete` is re-mutated (here to `failed`) by a
delivery whose payload snapshot still says `pending`, because the handler
never consults the stored status. -/
theorem C3_counterexample :
    rowComplete.status = "complete" ∧
    (runDelivery (JVal.str "job-1", rowComplete) envFetchFail bodyPending).2.status =
      "failed" :=
  ⟨rfl, by rfl⟩

/-- C3 (amended): the handler mutates the row only when the notification
payload's `status` field equals `"pending"`; the stored status itself is
never consulted, so a delivery carrying a pending snapshot can still change
a row whose stored status is `complete` or `failed`. -/
theorem C3_mutation_only_on_pending_payload (env : Env) (body : WebhookBody)
    (h : (POST env body).updates ≠ []) :
    ∃ r, body.record = some r ∧ r.status = JVal.str "pending" := by
  obtain ⟨rec⟩ := body
  cases rec with
  | none => simp [POST] at h
  | some r =>
    refine ⟨r, rfl, ?_⟩
    by_cases hne : r.status = JVal.str "pending"
    · exact hne
    · by_cases hg : (r.id.truthy && r.input_image_url.truthy && r.status.truthy) = false
      · rw [POST_guard_fail env _ r rfl hg] at h
        exact absurd rfl h
      · have hg2 : (r.id.truthy && r.input_image_url.truthy && r.status.truthy) = true := by
          revert hg
          cases r.id.truthy && r.input_image_url.truthy && r.status.truthy <;> simp
        rw [Bool.and_eq_true, Bool.and_eq_true] at hg2
        obtain ⟨⟨hid, hurl⟩, hst⟩ := hg2
        rw [POST_nonpending env _ r rfl hid hurl hst hne] at h
        exact absurd rfl h

theorem C3_witness : ∃ r, bodyPending.record = some r ∧ r.status = JVal.str "pending" :=
  C3_mutation_only_on_pending_payload envSuccess bodyPending (by decide)

/-- C8 counterexample: after a failing delivery and then a successful
redelivery (both carrying the original pending snapshot), the row is in the
terminal state `complete` with BOTH `result_image_url` and `error_message`
populated, because the success update does not clear the stale
`error_message` column. -/
theorem C8_counterexample :
    (runDelivery (runDelivery storePending envFetchFail bodyPending)
        envSuccess bodyPending).2.status = "complete" ∧
    ((runDelivery (runDelivery storePending envFetchFail bodyPending)
        envSuccess bodyPending).2.result_image_url).isSome = true ∧
    ((runDelivery (runDelivery storePending envFetchFail bodyPending)
        envSuccess bodyPending).2.error_message).isSome = true :=
  ⟨by rfl, by rfl, by rfl⟩

/-- C8 (amended): for a single delivery against a stored row that starts with
neither `result_image_url` nor `error_message` populated (as rows created in
`pending` do), a terminal row has exactly one of the two populated:
`result_image_url` and no `error_message` when `complete`, `error_message`
and no `result_image_url` when `failed`. Redeliveries can violate this,
since finalize updates do not clear the other column. -/
theorem C8_single_delivery_exclusive (env : Env) (body : WebhookBody) (id0 : JVal)
    (row0 : JobRow) (hs : row0.status = "pending") (hr : row0.result_image_url = none)
    (he : row0.error_message = none) :
    ((runDelivery (id0, row0) env body).2.status = "complete" →
      ((runDelivery (id0, row0) env body).2.result_image_url).isSome = true ∧
      (runDelivery (id0, row0) env body).2.error_message = none) ∧
    ((runDelivery (id0, row0) env body).2.status = "failed" →
      ((runDelivery (id0, row0) env body).2.error_message).isSome = true ∧
      (runDelivery (id0, row0) env body).2.result_image_url = none) := by
  obtain ⟨rec⟩ := body
  cases rec with
  | none =>
    simp [runDelivery, POST, hs]
  | some r =>
    by_cases hg : (r.id.truthy && r.input_image_url.truthy && r.status.truthy) = false
    · rw [runDelivery, POST_guard_fail _ _ r rfl hg]
      simp [hs]
    · have hg2 : (r.id.truthy && r.input_image_url.truthy && r.status.truthy) = true := by
        revert hg
        cases r.id.truthy && r.input_image_url.truthy && r.status.truthy <;> simp
      rw [Bool.and_eq_true, Bool.and_eq_true] at hg2
      obtain ⟨⟨hid, hurl⟩, hst⟩ := hg2
      by_cases hne : r.status = JVal.str "pending"
      · cases hpipe : pipeline { env with fetchError := none, job := some row0 }
            r.input_image_url with
        | ok ru =>
          rw [runDelivery,
            POST_pipeline_ok { env with fetchError := none, job := some row0 }
              { record := some r } r row0 ru rfl hid hurl hne rfl rfl hpipe]
          by_cases hidm : r.id = id0
          · simp [applyCall, applyUpdate, hidm, hr, he]
          · simp [applyCall, applyUpdate, hidm, hs]
        | error e =>
          rw [runDelivery,
            POST_pipeline_err { env with fetchError := none, job := some row0 }
              { record := some r } r row0 e rfl hid hurl hne rfl rfl hpipe]
          by_cases hidm : r.id = id0
          · simp [applyCall, applyUpdate, hidm, hr, he]
          · simp [applyCall, applyUpdate, hidm, hs]
      · rw [runDelivery, POST_nonpending _ _ r rfl hid hurl hst hne]
        simp [hs]

theorem C8_witness :
    ((runDelivery (JVal.str "job-1", rowPending) envSuccess bodyPending).2.status =
        "complete" →
      ((runDelivery (JVal.str "job-1", rowPending) envSuccess bodyPending).2.result_image_url).isSome =
        true ∧
      (runDelivery (JVal.str "job-1", rowPending) envSuccess bodyPending).2.error_message =
        none) ∧
    ((runDelivery (JVal.str "job-1", rowPending) envSuccess bodyPending).2.status =
        "failed" →
      ((runDelivery (JVal.str "job-1", rowPending) envSuccess bodyPending).2.error_message).isSome =
        true ∧
      (runDelivery (JVal.str "job-1", rowPending) envSuccess bodyPending).2.result_image_url =
        none) :=
  C8_single_delivery_exclusive envSuccess bodyPending (JVal.str "job-1") rowPending
    rfl rfl rfl

/-- C7 counterexample: encode-then-decode does not recover the original for
every inline payload — encoding the empty byte sequence yields
`data:image/png;base64,` whose payload group is empty, so the decoder throws
the format error instead of returning the bytes and media type. -/
theorem C7_counterexample :
    base64DataUrlToBlob (encodeDataUrl "image/png".toList []) =
      Except.error "Invalid data URL format" ∧
    (Except.error "Invalid data URL format" : Except String Blob) ≠
      Except.ok { bytes := ([] : List Nat), mimeType := String.mk "image/png".toList } :=
  ⟨by rfl, by simp⟩

/-- C7 (amended): for every nonempty byte sequence (bytes < 256) and every
nonempty media type drawn from the regex's `[A-Za-z-+/]` class, encoding
into a data URL and decoding with the handler's decoder recovers exactly the
original bytes and the declared media type. -/
theorem C7_roundtrip (mime : List Char) (bytes : List Nat) (hm : mime ≠ [])
    (hmc : ∀ x ∈ mime, mimeChar x = true) (hb : bytes ≠ [])
    (hbb : ∀ b ∈ bytes, b < 256) :
    base64DataUrlToBlob (encodeDataUrl mime bytes) =
      Except.ok { bytes := bytes, mimeType := String.mk mime } := by
  have henc : b64EncodeBytes bytes ≠ [] := b64EncodeBytes_ne_nil bytes hb
  have hlt : ∀ x ∈ b64EncodeBytes bytes, lineTerm x = false :=
    b64EncodeBytes_no_lineTerm bytes hbb
  have hparse : parseDataUrl (dataColon ++ mime ++ semiBase64 ++ b64EncodeBytes bytes) =
      some (mime, b64EncodeBytes bytes) :=
    parseDataUrl_of_decomp mime (b64EncodeBytes bytes) hm hmc henc hlt
  unfold base64DataUrlToBlob encodeDataUrl
  have hmk : (String.mk (dataColon ++ mime ++ semiBase64 ++ b64EncodeBytes bytes)).toList =
      dataColon ++ mime ++ semiBase64 ++ b64EncodeBytes bytes := rfl
  rw [hmk, hparse]
  simp only [atobBytes_b64EncodeBytes bytes hbb]

theorem C7_witness :
    base64DataUrlToBlob (encodeDataUrl "image/png".toList [137, 80, 78, 71]) =
      Except.ok { bytes := [137, 80, 78, 71], mimeType := String.mk "image/png".toList } :=
  C7_roundtrip "image/png".toList [137, 80, 78, 71] (by decide) (by decide) (by decide)
    (by decide)

/-- C10 counterexample: `data:a;base64,A\nA` is of the form
`data:<mime>;base64,<payload>` with a letters-only mime and a non-empty
payload, yet the decoder still throws `Invalid data URL format`, because the
regex's `.` does not match the line terminator inside the payload. -/
theorem C10_counterexample :
    ("data:a;base64,A\nA").toList =
      dataColon ++ ['a'] ++ semiBase64 ++ ['A', '\n', 'A'] ∧
    (['a'].all mimeChar) = true ∧ (['a'] ≠ ([] : List Char)) ∧
    (['A', '\n', 'A'] ≠ ([] : List Char)) ∧
    base64DataUrlToBlob "data:a;base64,A\nA" = Except.error "Invalid data URL format" :=
  ⟨by rfl, by decide, by decide, by decide, by rfl⟩

/-- C10 (amended): routing is decided solely by the `data:` prefix — a string
`input_image_url` starting with `data:` never reaches the remote HTTP GET —
and the decoder throws `Invalid data URL format` exactly when the string
does not decompose as `data:<mime>;base64,<payload>` with a nonempty mime
drawn from letters, `-`, `+`, `/`, and a nonempty payload free of line
terminators. -/
theorem C10_data_url_routing :
    (∀ (env : Env) (body : WebhookBody) (r : RecordFields) (u : String),
        body.record = some r → r.input_image_url = JVal.str u →
        isBase64DataUrl u = true → (POST env body).remoteFetchCalled = false) ∧
    (∀ u : String,
        base64DataUrlToBlob u = Except.error "Invalid data URL format" ↔
          ¬ ∃ m p : List Char,
            u.toList = dataColon ++ m ++ semiBase64 ++ p ∧ m ≠ [] ∧
            (∀ x ∈ m, mimeChar x = true) ∧ p ≠ [] ∧ (∀ x ∈ p, lineTerm x = false)) := by
  constructor
  · intro env body r u hrec hru hdata
    obtain ⟨rec⟩ := body
    simp only [WebhookBody.record] at hrec
    subst hrec
    simp only [POST]
    split
    · rfl
    · split
      · rfl
      · split
        · rfl
        · split <;> simp [remoteFetchNeeded, hru, hdata]
  · intro u
    rw [base64DataUrlToBlob_format_iff]
    constructor
    · intro hnone hex
      obtain ⟨m, p, hdec, hm, hmc, hp, hl⟩ := hex
      rw [hdec, parseDataUrl_of_decomp m p hm hmc hp hl] at hnone
      exact absurd hnone (by simp)
    · intro hnotex
      cases hparse : parseDataUrl u.toList with
      | none => rfl
      | some mp =>
        obtain ⟨m, p⟩ := mp
        obtain ⟨hdec, hm, hmc, hp, hl⟩ := parseDataUrl_some_decomp u.toList m p hparse
        exact absurd ⟨m, p, hdec, hm, hmc, hp, hl⟩ hnotex

theorem C10_witness :
    (POST envSuccess bodyDataUrl).remoteFetchCalled = false ∧
    ¬ ∃ m p : List Char,
      ("data:!").toList = dataColon ++ m ++ semiBase64 ++ p ∧ m ≠ [] ∧
      (∀ x ∈ m, mimeChar x = true) ∧ p ≠ [] ∧ (∀ x ∈ p, lineTerm x = false) :=
  ⟨C10_data_url_routing.1 envSuccess bodyDataUrl
      { recPending with input_image_url := .str "data:image/png;base64,AQID" }
      "data:image/png;base64,AQID" rfl rfl (by rfl),
   (C10_data_url_routing.2 "data:!").mp (by rfl)⟩
